import Mathlib

/-!
Verification development for the storefront recommendation and bundle
pipelines: the AIRecommender widget, the getRecommendationsWithFallback
route helper, the Gemini client with its response parser, and the bundle
page loader (field normalization, rich-text extraction, pricing).
The definitions are shallow embeddings of the JavaScript source; JavaScript
builtins that the source relies on (JSON.parse, parseFloat, String.prototype
methods, the regex match) are modelled explicitly below.
-/

namespace HydrogenDemo

/-- Product summary as used by the recommender: only the fields the
recommendation logic inspects are carried. -/
structure Product where
  id : String
  title : String
  handle : String
deriving DecidableEq, Repr

/-- JavaScript whitespace class as used by the regexes in the source
(space, tab, newline, carriage return, vertical tab, form feed). -/
def isJsWsChar (c : Char) : Bool :=
  c = ' ' || c = '\t' || c = '\n' || c = '\r' || c = '\x0b' || c = '\x0c'

/-- Model of the JavaScript expression handle.replace(new hyphen-stripping
regex, empty), i.e. removal of every hyphen. -/
def stripHyphens (s : String) : String :=
  String.mk (s.toList.filter (fun c => c ≠ '-'))

/-- Core of replace on whitespace runs: the Bool argument records whether the
previous character was whitespace (so a run emits a single replacement). -/
def wsRunsAux (repl : Char) : Bool → List Char → List Char
  | _, [] => []
  | prevWs, c :: cs =>
    if isJsWsChar c then
      if prevWs then wsRunsAux repl true cs
      else repl :: wsRunsAux repl true cs
    else c :: wsRunsAux repl false cs

/-- Model of handle.replace of whitespace runs by a single hyphen. -/
def wsRunsToHyphen (s : String) : String :=
  String.mk (wsRunsAux '-' false s.toList)

/-- Model of String.prototype.toLowerCase restricted to per-character
lowering (the source only deals with ASCII handles). -/
def jsToLower (s : String) : String :=
  String.mk (s.toList.map Char.toLower)

/-- The widget matcher predicate from AIRecommender: stored handle equals the
token verbatim, or the token with hyphens removed, or the token with
whitespace runs replaced by hyphens then lower-cased. -/
def matcherPred (p : Product) (handle : String) : Bool :=
  p.handle == handle ||
  p.handle == stripHyphens handle ||
  p.handle == jsToLower (wsRunsToHyphen handle)

/-- availableProducts.find over the widget matcher predicate. -/
def findMatch (availableProducts : List Product) (handle : String) : Option Product :=
  availableProducts.find? (fun p => matcherPred p handle)

/-- The widget mapping step: map tokens to products, drop misses, keep at
most 6 (map + filter Boolean + slice 0 6 in the source). -/
def matchTokens (recommendedHandles : List String) (availableProducts : List Product) :
    List Product :=
  (recommendedHandles.filterMap (findMatch availableProducts)).take 6

/-- The route-level matcher predicate from getRecommendationsWithFallback:
only the verbatim and hyphen-stripped comparisons (no whitespace clause). -/
def matcherPredRoute (p : Product) (handle : String) : Bool :=
  p.handle == handle || p.handle == stripHyphens handle

/-- availableProducts.find over the route matcher predicate. -/
def findMatchRoute (availableProducts : List Product) (handle : String) : Option Product :=
  availableProducts.find? (fun p => matcherPredRoute p handle)

/-- The widget fallback merge from AIRecommender: when fewer than 4 matched
and the fallback list is non-empty, append fallback products whose handle is
not among the matched handles, sliced to 6 minus the matched count. -/
def mergeWidget (recommended fallbackProducts : List Product) : List Product :=
  if recommended.length < 4 ∧ 0 < fallbackProducts.length then
    let usedHandles := recommended.map (fun p => p.handle)
    let additional :=
      (fallbackProducts.filter (fun p => !(usedHandles.contains p.handle))).take
        (6 - recommended.length)
    recommended ++ additional
  else recommended

/-- The route fallback merge from getRecommendationsWithFallback: identical
shape but sliced to 4 minus the matched count. -/
def mergeRoute (recommendedProducts fallbackProducts : List Product) : List Product :=
  if recommendedProducts.length < 4 ∧ 0 < fallbackProducts.length then
    let usedHandles := recommendedProducts.map (fun p => p.handle)
    let additional :=
      (fallbackProducts.filter (fun p => !(usedHandles.contains p.handle))).take
        (4 - recommendedProducts.length)
    recommendedProducts ++ additional
  else recommendedProducts

/-- The widget success path after the POST resolves: match tokens, merge with
fallback, and if the merged list is empty use the first 6 fallback products. -/
def widgetProcess (recommendedHandles : List String)
    (availableProducts fallbackProducts : List Product) : List Product :=
  let recommended := matchTokens recommendedHandles availableProducts
  let merged := mergeWidget recommended fallbackProducts
  if 0 < merged.length then merged else fallbackProducts.take 6

/-- The route success path in getRecommendationsWithFallback after the Gemini
call resolves with a token list. -/
def routeProcess (recommendedHandles : List String)
    (availableProducts fallbackProducts : List Product) : List Product :=
  let recommendedProducts :=
    (recommendedHandles.filterMap (findMatchRoute availableProducts)).take 6
  let merged := mergeRoute recommendedProducts fallbackProducts
  if 0 < merged.length then merged else fallbackProducts.take 6

/-- Outcome of the POST issued by the widget: either the fetch or response
handling failed (the catch path), or it yielded a token list. -/
inductive PostResult where
  | failed
  | succeeded (recommendations : List String)
deriving DecidableEq, Repr

/-- The fetchRecommendations effect in the AIRecommender widget: when the
available-products list is empty it sets the fallback slice and returns
before any POST; otherwise the outcome of the single POST decides the final
set. The Bool records whether a POST was issued. -/
def fetchRecommendations (availableProducts fallbackProducts : List Product)
    (post : PostResult) : List Product × Bool :=
  if availableProducts.length = 0 then
    (fallbackProducts.take 6, false)
  else
    match post with
    | .failed => (fallbackProducts.take 6, true)
    | .succeeded recs =>
      (widgetProcess recs availableProducts fallbackProducts, true)

/-- Specification-side fallback appender, written from the claim text: walk
the fallback list in order, skipping entries whose handle is already among
the matched entries, appending until the combined count reaches the limit or
the fallback list is exhausted. -/
def appendUntil (matched : List Product) (limit : Nat) :
    List Product → List Product → List Product
  | acc, [] => acc
  | acc, f :: fs =>
    if limit ≤ acc.length then acc
    else if (matched.map (fun p => p.handle)).contains f.handle then
      appendUntil matched limit acc fs
    else appendUntil matched limit (acc ++ [f]) fs

/-- JSON values as produced by the JSON.parse builtin: the subset of
JavaScript values a parsed document can contain. -/
inductive JSON where
  | null
  | bool (b : Bool)
  | num (q : ℚ)
  | str (s : String)
  | arr (elems : List JSON)
  | obj (fields : List (String × JSON))

/-- JSON whitespace (the four characters the JSON grammar allows between
tokens). -/
def isJsonWs (c : Char) : Bool :=
  c = ' ' || c = '\t' || c = '\n' || c = '\r'

/-- Drop leading JSON whitespace. -/
def skipWs : List Char → List Char
  | [] => []
  | c :: cs => if isJsonWs c then skipWs cs else c :: cs

/-- Hexadecimal digit value, for unicode escapes in JSON strings. -/
def hexVal (c : Char) : Option Nat :=
  if '0' ≤ c ∧ c ≤ '9' then some (c.toNat - '0'.toNat)
  else if 'a' ≤ c ∧ c ≤ 'f' then some (c.toNat - 'a'.toNat + 10)
  else if 'A' ≤ c ∧ c ≤ 'F' then some (c.toNat - 'A'.toNat + 10)
  else none

/-- Parse the body of a JSON string literal (the opening quote already
consumed), returning the decoded characters and the remaining input. -/
def parseJStringAux : List Char → Option (List Char × List Char)
  | [] => none
  | '"' :: rest => some ([], rest)
  | '\\' :: '"' :: rest => (parseJStringAux rest).map (fun p => ('"' :: p.1, p.2))
  | '\\' :: '\\' :: rest => (parseJStringAux rest).map (fun p => ('\\' :: p.1, p.2))
  | '\\' :: '/' :: rest => (parseJStringAux rest).map (fun p => ('/' :: p.1, p.2))
  | '\\' :: 'b' :: rest => (parseJStringAux rest).map (fun p => ('\x08' :: p.1, p.2))
  | '\\' :: 'f' :: rest => (parseJStringAux rest).map (fun p => ('\x0c' :: p.1, p.2))
  | '\\' :: 'n' :: rest => (parseJStringAux rest).map (fun p => ('\n' :: p.1, p.2))
  | '\\' :: 'r' :: rest => (parseJStringAux rest).map (fun p => ('\r' :: p.1, p.2))
  | '\\' :: 't' :: rest => (parseJStringAux rest).map (fun p => ('\t' :: p.1, p.2))
  | '\\' :: 'u' :: a :: b :: c :: d :: rest =>
    match hexVal a, hexVal b, hexVal c, hexVal d with
    | some ha, some hb, some hc, some hd =>
      (parseJStringAux rest).map
        (fun p => (Char.ofNat (((ha * 16 + hb) * 16 + hc) * 16 + hd) :: p.1, p.2))
    | _, _, _, _ => none
  | '\\' :: _ => none
  | c :: rest => (parseJStringAux rest).map (fun p => (c :: p.1, p.2))

/-- Digits to a natural number. -/
def digitsToNat (ds : List Char) : Nat :=
  ds.foldl (fun n c => n * 10 + (c.toNat - '0'.toNat)) 0

/-- Parse a JSON number token (strict JSON grammar: optional minus, integer
part without leading zeros, optional fraction, optional exponent). -/
def parseJNumber (cs : List Char) : Option (ℚ × List Char) :=
  let (neg, cs₁) : Bool × List Char :=
    match cs with
    | '-' :: r => (true, r)
    | _ => (false, cs)
  match cs₁ with
  | [] => none
  | c :: _ =>
    if !c.isDigit then none
    else
      let intDs := if c = '0' then ['0'] else cs₁.takeWhile Char.isDigit
      let cs₂ := cs₁.drop intDs.length
      let fracStep : Option (List Char × List Char) :=
        match cs₂ with
        | '.' :: r =>
          let ds := r.takeWhile Char.isDigit
          if ds = [] then none else some (ds, r.drop ds.length)
        | _ => some ([], cs₂)
      match fracStep with
      | none => none
      | some (fracDs, cs₃) =>
        let expStep : Option (Int × List Char) :=
          match cs₃ with
          | e :: r =>
            if e = 'e' ∨ e = 'E' then
              let (esign, r₂) : Int × List Char :=
                match r with
                | '-' :: r' => (-1, r')
                | '+' :: r' => (1, r')
                | _ => (1, r)
              let eds := r₂.takeWhile Char.isDigit
              if eds = [] then none
              else some (esign * (digitsToNat eds : Int), r₂.drop eds.length)
            else some (0, cs₃)
          | [] => some (0, cs₃)
        match expStep with
        | none => none
        | some (expVal, cs₄) =>
          let mantissa : ℚ :=
            (digitsToNat intDs : ℚ) +
              (digitsToNat fracDs : ℚ) / ((10 : ℚ) ^ fracDs.length)
          let signed : ℚ := if neg then -mantissa else mantissa
          some (signed * (10 : ℚ) ^ expVal, cs₄)

mutual

/-- Fuel-indexed JSON value parser (recursive descent, as JSON.parse). -/
def parseJValue : Nat → List Char → Option (JSON × List Char)
  | 0, _ => none
  | fuel + 1, cs =>
    match skipWs cs with
    | [] => none
    | '"' :: rest => (parseJStringAux rest).map (fun p => (.str (String.mk p.1), p.2))
    | '{' :: rest =>
      (match skipWs rest with
       | '}' :: rem => some (.obj [], rem)
       | rest' => (parseJObjectItems fuel rest').map (fun p => (.obj p.1, p.2)))
    | '[' :: rest =>
      (match skipWs rest with
       | ']' :: rem => some (.arr [], rem)
       | rest' => (parseJArrayItems fuel rest').map (fun p => (.arr p.1, p.2)))
    | 'n' :: 'u' :: 'l' :: 'l' :: rest => some (.null, rest)
    | 't' :: 'r' :: 'u' :: 'e' :: rest => some (.bool true, rest)
    | 'f' :: 'a' :: 'l' :: 's' :: 'e' :: rest => some (.bool false, rest)
    | cs' => (parseJNumber cs').map (fun p => (.num p.1, p.2))

/-- Parse one or more comma-separated array elements up to the closing
bracket. -/
def parseJArrayItems : Nat → List Char → Option (List JSON × List Char)
  | 0, _ => none
  | fuel + 1, cs =>
    match parseJValue fuel cs with
    | none => none
    | some (v, rem) =>
      match skipWs rem with
      | ',' :: rem₂ => (parseJArrayItems fuel rem₂).map (fun p => (v :: p.1, p.2))
      | ']' :: rem₂ => some ([v], rem₂)
      | _ => none

/-- Parse one or more comma-separated object members up to the closing
brace. -/
def parseJObjectItems : Nat → List Char → Option (List (String × JSON) × List Char)
  | 0, _ => none
  | fuel + 1, cs =>
    match skipWs cs with
    | '"' :: rest =>
      (match parseJStringAux rest with
       | none => none
       | some (key, rem) =>
         match skipWs rem with
         | ':' :: rem₂ =>
           (match parseJValue fuel rem₂ with
            | none => none
            | some (v, rem₃) =>
              match skipWs rem₃ with
              | ',' :: rem₄ =>
                (parseJObjectItems fuel rem₄).map
                  (fun p => ((String.mk key, v) :: p.1, p.2))
              | '}' :: rem₄ => some ([(String.mk key, v)], rem₄)
              | _ => none)
         | _ => none)
    | _ => none

end

/-- Model of JSON.parse: parse a full document, allowing surrounding
whitespace, requiring the whole input to be consumed; none models a thrown
SyntaxError. -/
def jsonParse (s : String) : Option JSON :=
  match parseJValue (s.length + 1) s.toList with
  | some (v, rem) => if skipWs rem = [] then some v else none
  | none => none

/-- Model of String.prototype.trim: drop whitespace from both ends. -/
def jsTrim (s : String) : String :=
  String.mk (((s.toList.dropWhile isJsWsChar).reverse.dropWhile isJsWsChar).reverse)

/-- The longest prefix of the input that ends at the last closing bracket,
or none when the input holds no closing bracket. -/
def takeThroughLastRB : List Char → Option (List Char)
  | [] => none
  | c :: rest =>
    match takeThroughLastRB rest with
    | some tail => some (c :: tail)
    | none => if c = ']' then some [c] else none

/-- Model of responseText.match against the greedy dotall bracketed-array
regex: the match starts at the first opening bracket and extends to the last
closing bracket after it; none when no such span exists. -/
def bracketMatchL : List Char → Option (List Char)
  | [] => none
  | c :: rest =>
    if c = '[' then (takeThroughLastRB rest).map (fun t => c :: t)
    else bracketMatchL rest

/-- String-level wrapper for the bracketed-array regex match. -/
def bracketMatch (s : String) : Option String :=
  (bracketMatchL s.toList).map String.mk

/-- Error taxonomy of the Gemini client, classifying the Error messages the
source throws: missing credential, non-success or malformed upstream
response, undecodable recommendation text, a response body that is not JSON
(SyntaxError from response.json), and a property access on undefined
(TypeError). -/
inductive GError where
  | configurationError (msg : String)
  | upstreamError (msg : String)
  | parseError (msg : String)
  | invalidJsonBody
  | typeError
deriving DecidableEq, Repr

/-- Whether a JSON value is an array (Array.isArray). -/
def JSON.isArr : JSON → Bool
  | .arr _ => true
  | _ => false

/-- The response-parsing tail of getGeminiRecommendations: regex-match a
bracketed array out of the response text, JSON.parse it, and reject
non-array decodes. -/
def parseRecommendations (responseText : String) : Except GError (List JSON) :=
  match bracketMatch responseText with
  | none => .error (.parseError "Could not parse recommendations from Gemini response")
  | some sub =>
    match jsonParse sub with
    | none => .error (.parseError "Unexpected token in JSON")
    | some v =>
      match v with
      | .arr elems => .ok elems
      | _ => .error (.parseError "Gemini response is not an array")

/-- Object member lookup as JavaScript property access on a parsed JSON
object (later duplicate keys shadow earlier ones, as in JSON.parse). -/
def objGet (fields : List (String × JSON)) (k : String) : Option JSON :=
  (fields.reverse.find? (fun kv => kv.1 == k)).map (fun kv => kv.2)

/-- Property access through an optional value, as the optional-chaining and
plain access the source performs on parsed response data; access on a
non-object yields undefined. -/
def optField : Option JSON → String → Option JSON
  | some (.obj fields), k => objGet fields k
  | _, _ => none

/-- Index access through an optional value; indexing a non-array yields
undefined. -/
def optIndex : Option JSON → Nat → Option JSON
  | some (.arr elems), i => elems.get? i
  | _, _ => none

/-- JavaScript truthiness of an optional JSON value (undefined, null, false,
zero and the empty string are falsy). -/
def truthy : Option JSON → Bool
  | none => false
  | some .null => false
  | some (.bool b) => b
  | some (.num q) => decide (q ≠ 0)
  | some (.str s) => decide (s ≠ "")
  | some (.arr _) => true
  | some (.obj _) => true

/-- The single HTTP response the client observes from its one fetch call. -/
structure HttpResponse where
  ok : Bool
  status : Nat
  statusText : String
  body : String
deriving DecidableEq, Repr

/-- Shallow embedding of getGeminiRecommendations, parameterised by the
response its single fetch would yield. The second component counts fetch
calls performed, making the no-retry contract statable. -/
def getGeminiRecommendations (apiKey : String) (response : HttpResponse) :
    Except GError (List JSON) × Nat :=
  if apiKey = "" then
    (.error (.configurationError "Gemini API key is required"), 0)
  else
    let result : Except GError (List JSON) :=
      if response.ok = false then
        .error (.upstreamError
          ("Gemini API error: " ++ toString response.status ++ " " ++
            response.statusText ++ " - " ++ response.body))
      else
        match jsonParse response.body with
        | none => .error .invalidJsonBody
        | some data =>
          let candidates := optField (some data) "candidates"
          let partsChain :=
            optField (optField (optIndex candidates 0) "content") "parts"
          if truthy candidates = false || truthy partsChain = false then
            .error (.upstreamError "Invalid response from Gemini API")
          else
            match optField (optIndex partsChain 0) "text" with
            | some (.str t) => parseRecommendations (jsTrim t)
            | _ => .error .typeError
    (result, 1)

/-- Model of value.replace collapsing whitespace runs to single spaces. -/
def jsCollapseWs (s : String) : String :=
  String.mk (wsRunsAux ' ' false s.toList)

/-- The walk closure of extractPlainText: an empty result for falsy nodes,
the value (or empty string) for text-typed nodes, and the space-joined
children walks when the children member is an array. Fuel bounds the
recursion depth; extractPlainText supplies fuel exceeding any parsed
document depth. -/
def walkNode : Nat → JSON → String
  | 0, _ => ""
  | fuel + 1, j =>
    if truthy (some j) = false then ""
    else
      match optField (some j) "type" with
      | some (.str "text") =>
        (match optField (some j) "value" with
         | some (.str s) => s
         | _ => "")
      | _ =>
        match optField (some j) "children" with
        | some (.arr kids) => " ".intercalate (kids.map (walkNode fuel))
        | _ => ""

/-- extractPlainText from the bundle pages: parse the rich-text JSON, walk
it, collapse whitespace and trim; a falsy value yields the empty string and
malformed JSON returns the raw value via the catch branch. -/
def extractPlainText (value : String) : String :=
  if value = "" then ""
  else
    match jsonParse value with
    | some richText => jsTrim (jsCollapseWs (walkNode value.length richText))
    | none => value

/-- Specification-side depth-first plain-text extraction, written from the
claim text: traverse the children tree, a leaf text-typed node contributes
its value, and sibling results are joined with single spaces. -/
def specWalk : Nat → JSON → String
  | 0, _ => ""
  | fuel + 1, j =>
    match j with
    | .obj fields =>
      (match objGet fields "type" with
       | some (.str "text") =>
         (match objGet fields "value" with
          | some (.str s) => s
          | _ => "")
       | _ =>
         match objGet fields "children" with
         | some (.arr kids) => " ".intercalate (kids.map (specWalk fuel))
         | _ => "")
    | _ => ""

/-- Model of the parseFloat builtin on finite decimal forms: skip leading
whitespace, an optional sign, then the longest numeric prefix of digits with
optional fraction and exponent; none models NaN (no numeric prefix). -/
def jsParseFloat (s : String) : Option ℚ :=
  let cs := s.toList.dropWhile isJsWsChar
  let (neg, cs₁) : Bool × List Char :=
    match cs with
    | '-' :: r => (true, r)
    | '+' :: r => (false, r)
    | _ => (false, cs)
  let intDs := cs₁.takeWhile Char.isDigit
  let cs₂ := cs₁.drop intDs.length
  let (fracDs, cs₃) : List Char × List Char :=
    match cs₂ with
    | '.' :: r => (r.takeWhile Char.isDigit, r.drop (r.takeWhile Char.isDigit).length)
    | _ => ([], cs₂)
  if intDs = [] ∧ fracDs = [] then none
  else
    let expVal : Int :=
      match cs₃ with
      | e :: r =>
        if e = 'e' ∨ e = 'E' then
          let (esign, r₂) : Int × List Char :=
            match r with
            | '-' :: r' => (-1, r')
            | '+' :: r' => (1, r')
            | _ => (1, r)
          let eds := r₂.takeWhile Char.isDigit
          if eds = [] then 0 else esign * (digitsToNat eds : Int)
        else 0
      | [] => 0
    let mantissa : ℚ :=
      (digitsToNat intDs : ℚ) + (digitsToNat fracDs : ℚ) / ((10 : ℚ) ^ fracDs.length)
    let signed : ℚ := if neg then -mantissa else mantissa
    some (signed * (10 : ℚ) ^ expVal)

/-- Model of Number.prototype.toFixed with zero digits: round to the nearest
integer, ties toward positive infinity. -/
def toFixed0 (q : ℚ) : String :=
  toString (Int.floor (q + 1 / 2))

/-- Pricing record built by the bundle loader. The bundle price is an
optional rational so that NaN (none) is representable. -/
structure Pricing where
  subtotal : ℚ
  bundlePrice : Option ℚ
  savingsLabel : String
deriving DecidableEq, Repr

/-- A product collected into a bundle, reduced to the single field the price
calculation reads: priceRange.minVariantPrice.amount. -/
structure PricedProduct where
  amount : String
deriving DecidableEq, Repr

/-- The pricing block of the bundle loader: subtotal folds the parsed
amounts treating NaN as zero, then the fixed-price and percentage branches
adjust the bundle price and savings label exactly as the source does. -/
def computePricing (products : List PricedProduct)
    (bundle_type discount_value : String) : Pricing :=
  let subtotal : ℚ :=
    products.foldl
      (fun sum p =>
        match jsParseFloat p.amount with
        | none => sum + 0
        | some price => sum + price)
      0
  let state₁ : Option ℚ × String :=
    if bundle_type = "fixed_price" then
      let bundlePrice := jsParseFloat discount_value
      let savings : Option ℚ :=
        match bundlePrice with
        | some b => some (subtotal - b)
        | none => none
      match savings with
      | some sv =>
        if 0 < sv then (bundlePrice, "You save " ++ toFixed0 sv)
        else (bundlePrice, "")
      | none => (bundlePrice, "")
    else (some subtotal, "")
  let state₂ : Option ℚ × String :=
    if bundle_type = "percentage" then
      match jsParseFloat discount_value with
      | some discountPercent =>
        let savings := subtotal * discountPercent / 100
        (some (subtotal - savings), "You save " ++ toFixed0 discountPercent ++ "%")
      | none => state₁
    else state₁
  ⟨subtotal, state₂.1, state₂.2⟩

/-- Specification-side pricing, written from the claim text: subtotal sums
the minimum-variant-price amounts with non-numeric amounts counted as zero;
fixed_price takes the parsed discount as the bundle price with a savings
label stating the positive difference; percentage with a numeric discount
subtracts the percentage and states it; any other bundle type keeps the
subtotal with no label (that default also covers a non-numeric percentage,
which the claim leaves to its companion NaN claim). -/
def specPricing (products : List PricedProduct)
    (bundle_type discount_value : String) : Pricing :=
  let subtotal : ℚ := (products.map (fun p => (jsParseFloat p.amount).getD 0)).sum
  if bundle_type = "fixed_price" then
    let bp := jsParseFloat discount_value
    let label :=
      match bp with
      | some b => if 0 < subtotal - b then "You save " ++ toFixed0 (subtotal - b) else ""
      | none => ""
    ⟨subtotal, bp, label⟩
  else if bundle_type = "percentage" then
    match jsParseFloat discount_value with
    | some dp =>
      ⟨subtotal, some (subtotal - subtotal * dp / 100),
        "You save " ++ toFixed0 dp ++ "%"⟩
    | none => ⟨subtotal, some subtotal, ""⟩
  else ⟨subtotal, some subtotal, ""⟩

/-- A GraphQL field reference as returned by the bundle query: a media
image (whose nested image object and url may be absent), a generic file, or
some other referenced object such as a product. -/
inductive Reference where
  | mediaImage (image : Option (Option String × Option String))
  | genericFile (url : Option String) (alt : Option String)
  | other
deriving DecidableEq, Repr

/-- The url-and-altText record formatImageReference produces. -/
structure ImageRef where
  url : String
  altText : String
deriving DecidableEq, Repr

/-- formatImageReference from the bundle page: a MediaImage resolves through
its nested image object, a GenericFile through its url, anything else (or a
missing or falsy url) yields null. -/
def formatImageReference : Option Reference → Option ImageRef
  | none => none
  | some (.mediaImage img) =>
    (match img with
     | none => none
     | some (urlOpt, altOpt) =>
       match urlOpt with
       | none => none
       | some url =>
         if url = "" then none
         else some ⟨url, altOpt.getD ""⟩)
  | some (.genericFile urlOpt altOpt) =>
    (match urlOpt with
     | none => none
     | some url =>
       if url = "" then none
       else some ⟨url, altOpt.getD ""⟩)
  | some .other => none

/-- A metaobject field as consumed by formatBundleFields. -/
structure BundleField where
  key : String
  value : String
  type : String
  reference : Option Reference
deriving DecidableEq, Repr

/-- A value in the flattened bundle record: a plain string or a resolved
image record. -/
inductive FieldVal where
  | str (s : String)
  | image (img : ImageRef)
deriving DecidableEq, Repr

/-- JavaScript object assignment on a key-ordered record: overwrite in place
when the key exists, otherwise append. -/
def setField (acc : List (String × FieldVal)) (k : String) (v : FieldVal) :
    List (String × FieldVal) :=
  match acc with
  | [] => [(k, v)]
  | (k', v') :: rest =>
    if k' = k then (k, v) :: rest else (k', v') :: setField rest k v

/-- Record member lookup on the flattened bundle record. -/
def lookupField (acc : List (String × FieldVal)) (k : String) : Option FieldVal :=
  (acc.find? (fun kv => kv.1 == k)).map (fun kv => kv.2)

/-- formatBundleFields from the bundle page: skip the products field,
extract plain text for rich-text fields, resolve file references to image
records when possible — falling through to the raw value when resolution
yields null — and pass every other field through as its raw value. -/
def formatBundleFields (fields : List BundleField) : List (String × FieldVal) :=
  fields.foldl
    (fun acc field =>
      if field.key = "products" then acc
      else if field.type = "rich_text_field" then
        setField acc field.key (.str (extractPlainText field.value))
      else if field.type = "file_reference" then
        match formatImageReference field.reference with
        | some image => setField acc field.key (.image image)
        | none => setField acc field.key (.str field.value)
      else setField acc field.key (.str field.value))
    []

/-- Specification-side matching relation, written from the claim text: the
stored handle equals the token verbatim, or the token with all hyphens
removed, or the token with whitespace runs replaced by single hyphens,
lower-cased. -/
def SpecResolves (p : Product) (t : String) : Prop :=
  p.handle = t ∨ p.handle = stripHyphens t ∨ p.handle = jsToLower (wsRunsToHyphen t)

instance (p : Product) (t : String) : Decidable (SpecResolves p t) := by
  unfold SpecResolves; infer_instance

/-- Specification-side reading of the greedy dotall bracketed-array pattern:
the text contains an opening bracket with a closing bracket somewhere after
it. -/
def HasBracketPair (s : String) : Prop :=
  ∃ l m r : List Char, s.toList = l ++ '[' :: m ++ ']' :: r

/-- Demo product with a hyphenated stored handle, for the concrete matching
facts. -/
def redShirtProduct : Product := ⟨"p1", "Red Shirt", "red-shirt"⟩

/-- Demo product whose stored handle carries no hyphen. -/
def redshirtPlain : Product := ⟨"p2", "Redshirt", "redshirt"⟩

/-- Demo fallback product with an unrelated handle. -/
def blueHatProduct : Product := ⟨"p3", "Blue Hat", "blue-hat"⟩

/-- Six demo fallback products with pairwise distinct handles. -/
def sixProducts : List Product :=
  [⟨"f1", "F1", "h1"⟩, ⟨"f2", "F2", "h2"⟩, ⟨"f3", "F3", "h3"⟩,
   ⟨"f4", "F4", "h4"⟩, ⟨"f5", "F5", "h5"⟩, ⟨"f6", "F6", "h6"⟩]

/-! ## Shared lemmas -/

theorem contains_eq_true_iff {α : Type} [BEq α] [LawfulBEq α] (l : List α) (a : α) :
    l.contains a = true ↔ a ∈ l := by
  simp [List.contains, List.elem_iff]

theorem appendUntil_eq (matched : List Product) (limit : Nat) :
    ∀ (acc fs : List Product),
      appendUntil matched limit acc fs =
        acc ++
          (fs.filter
            (fun p => !((matched.map (fun q => q.handle)).contains p.handle))).take
            (limit - acc.length)
  | acc, [] => by simp [appendUntil]
  | acc, f :: fs => by
    by_cases hlim : limit ≤ acc.length
    · simp [appendUntil, hlim, Nat.sub_eq_zero_of_le hlim]
    · by_cases hc : ∃ a ∈ matched, a.handle = f.handle
      · have hnall : ¬ ∀ x ∈ matched, ¬ x.handle = f.handle := by
          obtain ⟨a, ha, he⟩ := hc
          intro hall
          exact hall a ha he
        simp [appendUntil, hlim, hc, hnall, List.filter_cons,
          appendUntil_eq matched limit acc fs]
      · have hall : ∀ x ∈ matched, ¬ x.handle = f.handle := by
          intro x hx he
          exact hc ⟨x, hx, he⟩
        have hs : limit - acc.length = (limit - (acc.length + 1)) + 1 := by omega
        simp [appendUntil, hlim, hc, hall, List.filter_cons,
          appendUntil_eq matched limit (acc ++ [f]) fs, hs, List.take_succ_cons,
          List.length_append]

/-- Claim C1 (amended): when fewer than 4 matched entries and a non-empty
fallback list, the widget merger appends fallback products in order,
skipping handles already among the matched entries, until the count reaches
6 or the fallback list is exhausted, while the route-level merger in
getRecommendationsWithFallback stops at 4; with no matched entries the
widget output is the first 6 fallback products and the route output the
first 4. -/
theorem C1_fallback_merger :
    (∀ M F : List Product, M.length < 4 → F ≠ [] →
        mergeWidget M F = appendUntil M 6 M F) ∧
    (∀ M F : List Product, M.length < 4 → F ≠ [] →
        mergeRoute M F = appendUntil M 4 M F) ∧
    (∀ (T : List String) (A F : List Product), F ≠ [] →
        matchTokens T A = [] → widgetProcess T A F = F.take 6) ∧
    (∀ (T : List String) (A F : List Product), F ≠ [] →
        (T.filterMap (findMatchRoute A)).take 6 = [] →
        routeProcess T A F = F.take 4) := by
  refine ⟨?_, ?_, ?_, ?_⟩
  · intro M F h4 hne
    have h0 : 0 < F.length := List.length_pos.mpr hne
    rw [appendUntil_eq]
    simp [mergeWidget, h4, h0]
  · intro M F h4 hne
    have h0 : 0 < F.length := List.length_pos.mpr hne
    rw [appendUntil_eq]
    simp [mergeRoute, h4, h0]
  · intro T A F hne hmt
    have h0 : 0 < F.length := List.length_pos.mpr hne
    have htake : 0 < (F.take 6).length := by
      rw [List.length_take]
      exact lt_min_iff.mpr ⟨by norm_num, h0⟩
    simp [widgetProcess, hmt, mergeWidget, h0, htake]
  · intro T A F hne hmt
    have h0 : 0 < F.length := List.length_pos.mpr hne
    have htake : 0 < (F.take 4).length := by
      rw [List.length_take]
      exact lt_min_iff.mpr ⟨by norm_num, h0⟩
    simp [routeProcess, hmt, mergeRoute, h0, htake]

/-- Claim C1 counterexample: with no matched entries and six distinct
fallback products, the route-level merger returns the first 4 fallback
products, not the first 6 the claim requires. -/
theorem C1_fallback_merger_cex :
    routeProcess [] [] sixProducts = sixProducts.take 4 ∧
    routeProcess [] [] sixProducts ≠ sixProducts.take 6 := by
  constructor
  · decide
  · decide

/-- Claim C1 witness: the amended merger equations evaluated at concrete
inputs. -/
theorem C1_fallback_merger_witness :
    mergeWidget [redShirtProduct] [blueHatProduct] =
      appendUntil [redShirtProduct] 6 [redShirtProduct] [blueHatProduct] ∧
    mergeRoute [redShirtProduct] [blueHatProduct] =
      appendUntil [redShirtProduct] 4 [redShirtProduct] [blueHatProduct] ∧
    widgetProcess ["zzz"] [] sixProducts = sixProducts.take 6 ∧
    routeProcess ["zzz"] [] sixProducts = sixProducts.take 4 :=
  ⟨C1_fallback_merger.1 _ _ (by decide) (by decide),
   C1_fallback_merger.2.1 _ _ (by decide) (by decide),
   C1_fallback_merger.2.2.1 ["zzz"] [] sixProducts (by decide) (by decide),
   C1_fallback_merger.2.2.2 ["zzz"] [] sixProducts (by decide) (by decide)⟩

theorem mergeWidget_length_le (M F : List Product) (h : M.length ≤ 6) :
    (mergeWidget M F).length ≤ 6 := by
  simp only [mergeWidget]
  split
  case isTrue hcond =>
    have ht := List.length_take_le (6 - M.length)
      (F.filter (fun p => !((M.map (fun q => q.handle)).contains p.handle)))
    rw [List.length_append]
    omega
  case isFalse => exact h

theorem mergeRoute_length_le (M F : List Product) (h : M.length ≤ 6) :
    (mergeRoute M F).length ≤ 6 := by
  simp only [mergeRoute]
  split
  case isTrue hcond =>
    have ht := List.length_take_le (4 - M.length)
      (F.filter (fun p => !((M.map (fun q => q.handle)).contains p.handle)))
    rw [List.length_append]
    omega
  case isFalse => exact h

theorem nodup_mergeWidget (M F : List Product)
    (hM : (M.map (fun p => p.handle)).Nodup)
    (hF : (F.map (fun p => p.handle)).Nodup) :
    ((mergeWidget M F).map (fun p => p.handle)).Nodup := by
  simp only [mergeWidget]
  split
  case isTrue hcond =>
    rw [List.map_append, List.nodup_append]
    refine ⟨hM, ?_, ?_⟩
    · have hsub := (List.take_sublist (6 - M.length)
        (F.filter (fun p => !((M.map (fun q => q.handle)).contains p.handle)))).trans
        (List.filter_sublist F)
      exact hF.sublist (hsub.map _)
    · intro a haM haA
      obtain ⟨p, hpA, hpe⟩ := List.mem_map.mp haA
      have hpF := List.take_subset _ _ hpA
      have hpred := (List.mem_filter.mp hpF).2
      rw [hpe] at hpred
      have hcont : ((M.map (fun q => q.handle)).contains a) = true :=
        (contains_eq_true_iff _ _).mpr haM
      rw [hcont] at hpred
      simp at hpred
  case isFalse => exact hM

/-- Claim C2 (amended): both mergers produce at most 6 entries with matched
entries preceding the appended fallback entries, and no appended fallback
entry repeats a matched handle; full handle uniqueness across the final
sequence holds when the matched entries and the fallback list each carry
pairwise distinct handles (duplicate tokens can place the same product twice
among the matched entries, so it does not hold unconditionally). -/
theorem C2_final_output_invariant :
    (∀ (T : List String) (A F : List Product), (widgetProcess T A F).length ≤ 6) ∧
    (∀ (T : List String) (A F : List Product), (routeProcess T A F).length ≤ 6) ∧
    (∀ M F : List Product, ∃ appended,
        mergeWidget M F = M ++ appended ∧
        ∀ p ∈ appended, p.handle ∉ M.map (fun q => q.handle)) ∧
    (∀ (T : List String) (A F : List Product),
        ((matchTokens T A).map (fun p => p.handle)).Nodup →
        (F.map (fun p => p.handle)).Nodup →
        ((widgetProcess T A F).map (fun p => p.handle)).Nodup) := by
  refine ⟨?_, ?_, ?_, ?_⟩
  · intro T A F
    simp only [widgetProcess]
    split
    case isTrue =>
      exact mergeWidget_length_le _ _ (List.length_take_le _ _)
    case isFalse => exact List.length_take_le _ _
  · intro T A F
    simp only [routeProcess]
    split
    case isTrue =>
      exact mergeRoute_length_le _ _ (List.length_take_le _ _)
    case isFalse => exact List.length_take_le _ _
  · intro M F
    by_cases hcond : M.length < 4 ∧ 0 < F.length
    · refine ⟨(F.filter
          (fun p => !((M.map (fun q => q.handle)).contains p.handle))).take
            (6 - M.length), ?_, ?_⟩
      · simp [mergeWidget, hcond]
      · intro p hp hmem
        have hpF := List.take_subset _ _ hp
        have hpred := (List.mem_filter.mp hpF).2
        have hcont : ((M.map (fun q => q.handle)).contains p.handle) = true :=
          (contains_eq_true_iff _ _).mpr hmem
        rw [hcont] at hpred
        simp at hpred
    · exact ⟨[], by simp [mergeWidget, hcond], by simp⟩
  · intro T A F hM hF
    simp only [widgetProcess]
    split
    case isTrue => exact nodup_mergeWidget _ _ hM hF
    case isFalse => exact hF.sublist ((List.take_sublist _ _).map _)

/-- Claim C2 counterexample: the duplicate token red-shirt places the same
product twice among the matched entries, so the final sequence repeats a
handle. -/
theorem C2_final_output_invariant_cex :
    ¬ ((widgetProcess ["red-shirt", "red-shirt"] [redShirtProduct]
          [blueHatProduct]).map (fun p => p.handle)).Nodup := by
  decide

/-- Claim C2 witness: the uniqueness statement evaluated at a concrete
duplicate-free input. -/
theorem C2_final_output_invariant_witness :
    ((widgetProcess ["red-shirt"] [redShirtProduct] [blueHatProduct]).map
        (fun p => p.handle)).Nodup :=
  C2_final_output_invariant.2.2.2 ["red-shirt"] [redShirtProduct] [blueHatProduct]
    (by decide) (by decide)

theorem find?_eq_some_iff_append {α : Type} (p : α → Bool) (l : List α) (x : α) :
    l.find? p = some x ↔
      ∃ l₁ l₂, l = l₁ ++ x :: l₂ ∧ p x = true ∧ ∀ y ∈ l₁, p y = false := by
  induction l with
  | nil => simp
  | cons a l ih =>
    rw [List.find?_cons]
    cases hpa : p a
    · simp only []
      rw [ih]
      constructor
      · rintro ⟨l₁, l₂, rfl, hpx, hall⟩
        refine ⟨a :: l₁, l₂, rfl, hpx, ?_⟩
        intro y hy
        rcases List.mem_cons.mp hy with rfl | hy'
        · exact hpa
        · exact hall y hy'
      · rintro ⟨l₁, l₂, heq, hpx, hall⟩
        cases l₁ with
        | nil =>
          simp only [List.nil_append] at heq
          injection heq with h1 h2
          rw [h1] at hpa
          rw [hpx] at hpa
          cases hpa
        | cons b l₁ =>
          injection heq with h1 h2
          subst h1
          exact ⟨l₁, l₂, h2, hpx, fun y hy => hall y (List.mem_cons_of_mem _ hy)⟩
    · simp only []
      constructor
      · intro h
        injection h with h'
        subst h'
        exact ⟨[], l, rfl, hpa, by simp⟩
      · rintro ⟨l₁, l₂, heq, hpx, hall⟩
        cases l₁ with
        | nil =>
          simp only [List.nil_append] at heq
          injection heq with h1 h2
          rw [h1]
        | cons b l₁ =>
          injection heq with h1 h2
          subst h1
          have hfalse := hall a (List.mem_cons_self a l₁)
          rw [hfalse] at hpa
          cases hpa

theorem matcherPred_iff (p : Product) (t : String) :
    matcherPred p t = true ↔ SpecResolves p t := by
  simp [matcherPred, SpecResolves, or_assoc]

theorem matcherPred_false_iff (p : Product) (t : String) :
    matcherPred p t = false ↔ ¬ SpecResolves p t := by
  rw [← matcherPred_iff]
  cases matcherPred p t <;> simp

/-- Claim C3 (amended): the matcher resolves a token to the first product
whose stored handle equals the token verbatim, the token with hyphens
removed, or the token with whitespace runs hyphenated then lower-cased; the
tokens red-shirt and Red Shirt resolve to the product stored as red-shirt,
but redshirt does not (hyphen stripping applies to the token, so the token
red-shirt matches a product stored as redshirt, not the reverse); unmatched
tokens are dropped silently. -/
theorem C3_handle_matching :
    (∀ (P : List Product) (t : String) (x : Product),
        findMatch P t = some x ↔
          ∃ l₁ l₂, P = l₁ ++ x :: l₂ ∧ SpecResolves x t ∧
            ∀ q ∈ l₁, ¬ SpecResolves q t) ∧
    findMatch [redShirtProduct] "red-shirt" = some redShirtProduct ∧
    findMatch [redShirtProduct] "Red Shirt" = some redShirtProduct ∧
    findMatch [redShirtProduct] "redshirt" = none ∧
    findMatch [redshirtPlain] "red-shirt" = some redshirtPlain ∧
    (∀ (T : List String) (A : List Product) (t : String),
        findMatch A t = none → matchTokens (t :: T) A = matchTokens T A) := by
  refine ⟨?_, by decide, by decide, by decide, by decide, ?_⟩
  · intro P t x
    rw [show findMatch P t = P.find? (fun p => matcherPred p t) from rfl,
      find?_eq_some_iff_append]
    simp only [matcherPred_iff, matcherPred_false_iff]
  · intro T A t h
    simp [matchTokens, h]

/-- Claim C3 counterexample: with the product stored as red-shirt available,
the token redshirt resolves to nothing, contradicting the claim that all
three encodings resolve to it. -/
theorem C3_handle_matching_cex :
    redShirtProduct.handle = "red-shirt" ∧
    findMatch [redShirtProduct] "redshirt" = none := by
  decide

/-- Claim C3 witness: an unmatched token is dropped silently from the token
sequence. -/
theorem C3_handle_matching_witness :
    matchTokens ["no-such", "red-shirt"] [redShirtProduct] =
      matchTokens ["red-shirt"] [redShirtProduct] :=
  C3_handle_matching.2.2.2.2.2 ["red-shirt"] [redShirtProduct] "no-such" (by decide)

theorem pricing_foldl_eq (products : List PricedProduct) :
    ∀ a : ℚ,
      products.foldl
        (fun sum p =>
          match jsParseFloat p.amount with
          | none => sum + 0
          | some price => sum + price)
        a =
        a + (products.map (fun p => (jsParseFloat p.amount).getD 0)).sum := by
  induction products with
  | nil => intro a; simp
  | cons p ps ih =>
    intro a
    simp only [List.foldl_cons, List.map_cons, List.sum_cons]
    cases h : jsParseFloat p.amount
    · rw [ih]
      simp
    · rw [ih]
      simp [add_assoc]

theorem jsParseFloat_100 : jsParseFloat "100" = some 100 := by
  rw [show jsParseFloat "100" =
      some (((digitsToNat ('1' :: '0' :: '0' :: []) : ℚ) +
          (digitsToNat [] : ℚ) / (10 : ℚ) ^ (List.length ([] : List Char))) *
        (10 : ℚ) ^ (0 : ℤ)) from rfl]
  norm_num [show digitsToNat ('1' :: '0' :: '0' :: []) = 100 from by decide,
    show digitsToNat ([] : List Char) = 0 from by decide]

theorem jsParseFloat_80 : jsParseFloat "80" = some 80 := by
  rw [show jsParseFloat "80" =
      some (((digitsToNat ('8' :: '0' :: []) : ℚ) +
          (digitsToNat [] : ℚ) / (10 : ℚ) ^ (List.length ([] : List Char))) *
        (10 : ℚ) ^ (0 : ℤ)) from rfl]
  norm_num [show digitsToNat ('8' :: '0' :: []) = 80 from by decide,
    show digitsToNat ([] : List Char) = 0 from by decide]

theorem jsParseFloat_abc : jsParseFloat "abc" = none := rfl

/-- Claim C4 (confirmed): the bundle price calculation agrees with the
specification reading — subtotal sums the parsed amounts with non-numeric
amounts as zero, fixed_price takes the parsed discount with a label for a
positive difference, percentage with a numeric discount subtracts the
percentage and states it, and any other bundle type keeps the subtotal with
no label; the claimed fixed-price example evaluates as stated. -/
theorem C4_bundle_price_calculation :
    (∀ (products : List PricedProduct) (bt dv : String),
        (bt = "percentage" → (jsParseFloat dv).isSome = true) →
        computePricing products bt dv = specPricing products bt dv) ∧
    computePricing [⟨"100"⟩] "fixed_price" "80" =
      ⟨100, some 80, "You save 20"⟩ := by
  constructor
  · intro products bt dv hp
    have hsub := pricing_foldl_eq products 0
    simp only [computePricing, specPricing, hsub, zero_add]
    by_cases hf : bt = "fixed_price"
    · subst hf
      cases h : jsParseFloat dv
      · simp [h]
      · simp [h]
        split_ifs <;> simp
    · by_cases hpc : bt = "percentage"
      · subst hpc
        obtain ⟨dp, hdp⟩ := Option.isSome_iff_exists.mp (hp rfl)
        simp [hdp, hf]
      · simp [hf, hpc]
  · have hfloor : Int.floor ((0 : ℚ) + 100 - 80 + 1 / 2) = 20 := by norm_num
    simp only [computePricing, List.foldl_cons, List.foldl_nil, jsParseFloat_100,
      jsParseFloat_80, toFixed0]
    norm_num [hfloor]
    simp [show ("fixed_price" : String) ≠ "percentage" from by decide,
      show toString (20 : ℤ) = "20" from by decide]

/-- Claim C4 witness: the pricing agreement evaluated at a concrete
percentage bundle. -/
theorem C4_bundle_price_calculation_witness :
    computePricing [⟨"100"⟩] "percentage" "25" =
      specPricing [⟨"100"⟩] "percentage" "25" :=
  C4_bundle_price_calculation.1 [⟨"100"⟩] "percentage" "25" (fun _ => by decide)

/-- Claim C5 (amended): a non-numeric discount value propagates NaN only in
the fixed_price branch (the bundle price becomes NaN with no label); the
percentage branch guards with an is-NaN check and leaves the bundle price
equal to the subtotal with no label. -/
theorem C5_nan_propagation (products : List PricedProduct) (dv : String)
    (hdv : jsParseFloat dv = none) :
    ((computePricing products "fixed_price" dv).bundlePrice = none ∧
      (computePricing products "fixed_price" dv).savingsLabel = "") ∧
    ((computePricing products "percentage" dv).bundlePrice =
        some ((computePricing products "percentage" dv).subtotal) ∧
      (computePricing products "percentage" dv).savingsLabel = "") := by
  refine ⟨⟨?_, ?_⟩, ⟨?_, ?_⟩⟩ <;> simp [computePricing, hdv]

/-- Claim C5 counterexample: a percentage bundle with the non-numeric
discount value abc keeps the subtotal as the bundle price — NaN is not
propagated, contradicting the claim that neither branch guards. -/
theorem C5_nan_propagation_cex :
    (computePricing [⟨"100"⟩] "percentage" "abc").bundlePrice = some 100 ∧
    (computePricing [⟨"100"⟩] "percentage" "abc").bundlePrice ≠ none := by
  have h : (computePricing [⟨"100"⟩] "percentage" "abc").bundlePrice = some 100 := by
    simp only [computePricing, List.foldl_cons, List.foldl_nil, jsParseFloat_100,
      jsParseFloat_abc]
    norm_num
    simp [show ("percentage" : String) ≠ "fixed_price" from by decide]
  exact ⟨h, by rw [h]; exact Option.some_ne_none _⟩

/-- Claim C5 witness: the amended NaN behaviour evaluated at a concrete
non-numeric discount value. -/
theorem C5_nan_propagation_witness :
    jsParseFloat "abc" = none ∧
    (computePricing [⟨"100"⟩] "fixed_price" "abc").bundlePrice = none ∧
    (computePricing [⟨"100"⟩] "percentage" "abc").bundlePrice =
      some ((computePricing [⟨"100"⟩] "percentage" "abc").subtotal) :=
  ⟨by decide, (C5_nan_propagation [⟨"100"⟩] "abc" (by decide)).1.1,
   (C5_nan_propagation [⟨"100"⟩] "abc" (by decide)).2.1⟩

theorem lookupField_setField_self (acc : List (String × FieldVal)) (k : String)
    (v : FieldVal) : lookupField (setField acc k v) k = some v := by
  induction acc with
  | nil => simp [setField, lookupField]
  | cons kv rest ih =>
    by_cases hk : kv.1 = k
    · simp [setField, hk, lookupField]
    · simp only [setField]
      rw [if_neg hk]
      simp only [lookupField, List.find?_cons]
      have : (kv.1 == k) = false := by simp [hk]
      rw [this]
      exact ih

/-- Claim C6 (amended): a file_reference field whose reference resolves to a
url maps its key to the url-and-altText record, while an unresolvable
reference falls through to the raw string value under the same key — the key
is not omitted from the flattened record. -/
theorem C6_file_reference (fs : List BundleField) (f : BundleField)
    (hk : f.key ≠ "products") (ht : f.type = "file_reference") :
    (formatImageReference f.reference = none →
      lookupField (formatBundleFields (fs ++ [f])) f.key = some (.str f.value)) ∧
    (∀ img, formatImageReference f.reference = some img →
      lookupField (formatBundleFields (fs ++ [f])) f.key = some (.image img)) := by
  have hstep : formatBundleFields (fs ++ [f]) =
      (if f.key = "products" then formatBundleFields fs
       else if f.type = "rich_text_field" then
         setField (formatBundleFields fs) f.key (.str (extractPlainText f.value))
       else if f.type = "file_reference" then
         match formatImageReference f.reference with
         | some image => setField (formatBundleFields fs) f.key (.image image)
         | none => setField (formatBundleFields fs) f.key (.str f.value)
       else setField (formatBundleFields fs) f.key (.str f.value)) := by
    simp [formatBundleFields, List.foldl_append]
  have hrich : f.type ≠ "rich_text_field" := by
    rw [ht]; decide
  constructor
  · intro h
    rw [hstep, if_neg hk, if_neg hrich, if_pos ht, h]
    exact lookupField_setField_self _ _ _
  · intro img h
    rw [hstep, if_neg hk, if_neg hrich, if_pos ht, h]
    exact lookupField_setField_self _ _ _

/-- Claim C6 counterexample: an unresolvable file_reference field keeps its
key in the flattened record, mapped to the raw value, contradicting the
claimed omission. -/
theorem C6_file_reference_cex :
    lookupField
        (formatBundleFields [⟨"image", "gid-media-1", "file_reference", none⟩])
        "image" = some (.str "gid-media-1") ∧
    lookupField
        (formatBundleFields [⟨"image", "gid-media-1", "file_reference", none⟩])
        "image" ≠ none := by
  decide

/-- Claim C6 witness: the amended file-reference handling evaluated at an
unresolvable and at a resolvable concrete field. -/
theorem C6_file_reference_witness :
    lookupField (formatBundleFields [⟨"image", "gid-a", "file_reference", none⟩])
      "image" = some (.str "gid-a") ∧
    lookupField
        (formatBundleFields
          [⟨"image", "gid-b", "file_reference",
            some (.genericFile (some "https://x/a.png") (some "alt"))⟩])
        "image" = some (.image ⟨"https://x/a.png", "alt"⟩) :=
  ⟨(C6_file_reference [] ⟨"image", "gid-a", "file_reference", none⟩
      (by decide) rfl).1 rfl,
   (C6_file_reference []
      ⟨"image", "gid-b", "file_reference",
        some (.genericFile (some "https://x/a.png") (some "alt"))⟩
      (by decide) rfl).2 ⟨"https://x/a.png", "alt"⟩ rfl⟩

theorem walkNode_eq_specWalk : ∀ (fuel : Nat) (j : JSON),
    walkNode fuel j = specWalk fuel j := by
  intro fuel
  induction fuel with
  | zero => intro j; rfl
  | succ n ih =>
    have hfun : walkNode n = specWalk n := funext ih
    intro j
    cases j <;> simp [walkNode, specWalk, optField, truthy, hfun]

/-- Claim C9 (confirmed): extracting the claimed two-text-node document
yields the text Hello world; a value that is not well-formed JSON is
returned unchanged with no error; and on every well-formed value the result
is the trimmed, whitespace-collapsed depth-first traversal of the children
tree joining text-node values with single spaces. -/
theorem C9_rich_text_extraction :
    extractPlainText "\x7b\"type\":\"root\",\"children\":[\x7b\"type\":\"text\",\"value\":\"Hello\"\x7d,\x7b\"type\":\"text\",\"value\":\"world\"\x7d]\x7d" =
      "Hello world" ∧
    (∀ v, jsonParse v = none → extractPlainText v = v) ∧
    (∀ v j, jsonParse v = some j →
        extractPlainText v = jsTrim (jsCollapseWs (specWalk v.length j))) := by
  refine ⟨?_, ?_, ?_⟩
  · decide
  · intro v h
    by_cases hv : v = ""
    · subst hv; rfl
    · simp [extractPlainText, hv, h]
  · intro v j h
    have hv : v ≠ "" := by
      intro he
      rw [he] at h
      have h0 : jsonParse "" = none := rfl
      rw [h0] at h
      exact Option.noConfusion h
    simp [extractPlainText, hv, h, walkNode_eq_specWalk]

/-- Claim C9 witness: raw passthrough of a malformed value, and the
traversal equation at a concrete single-text-node document. -/
theorem C9_rich_text_extraction_witness :
    extractPlainText "not json" = "not json" ∧
    extractPlainText "\x7b\"type\":\"text\",\"value\":\"Hi\"\x7d" =
      jsTrim (jsCollapseWs (specWalk
        (String.length "\x7b\"type\":\"text\",\"value\":\"Hi\"\x7d")
        (JSON.obj [("type", JSON.str "text"), ("value", JSON.str "Hi")]))) :=
  ⟨C9_rich_text_extraction.2.1 "not json" rfl,
   C9_rich_text_extraction.2.2 _ _ rfl⟩

theorem takeThroughLastRB_isSome (cs : List Char) :
    (takeThroughLastRB cs).isSome = true ↔ ']' ∈ cs := by
  induction cs with
  | nil => simp [takeThroughLastRB]
  | cons c rest ih =>
    simp only [takeThroughLastRB]
    cases h : takeThroughLastRB rest with
    | some t =>
      have hr : ']' ∈ rest := ih.mp (by simp [h])
      simp [hr]
    | none =>
      by_cases hc : c = ']'
      · simp [hc]
      · have hr : ¬ (']' ∈ rest) := by
          intro hm
          have := ih.mpr hm
          rw [h] at this
          exact Bool.noConfusion this
        have hc' : ¬ (']' = c) := fun he => hc he.symm
        simp [hc, hc', hr]

theorem bracketMatchL_isSome (cs : List Char) :
    (bracketMatchL cs).isSome = true ↔
      ∃ l m r : List Char, cs = l ++ '[' :: m ++ ']' :: r := by
  induction cs with
  | nil => simp [bracketMatchL]
  | cons c rest ih =>
    simp only [bracketMatchL]
    by_cases hc : c = '['
    · subst hc
      rw [if_pos rfl]
      rw [show ((takeThroughLastRB rest).map (fun t => '[' :: t)).isSome =
          (takeThroughLastRB rest).isSome from Option.isSome_map]
      rw [takeThroughLastRB_isSome]
      constructor
      · intro hm
        obtain ⟨s, t, rfl⟩ := List.append_of_mem hm
        exact ⟨[], s, t, by simp⟩
      · rintro ⟨l, m, r, heq⟩
        cases l with
        | nil =>
          simp only [List.nil_append] at heq
          injection heq with h1 h2
          rw [h2]
          simp
        | cons b l' =>
          injection heq with h1 h2
          rw [h2]
          simp
    · rw [if_neg hc, ih]
      constructor
      · rintro ⟨l, m, r, rfl⟩
        exact ⟨c :: l, m, r, rfl⟩
      · rintro ⟨l, m, r, heq⟩
        cases l with
        | nil =>
          injection heq with h1 h2
          exact absurd h1 hc
        | cons b l' =>
          injection heq with h1 h2
          exact ⟨l', m, r, h2⟩

theorem hasBracketPair_iff (s : String) :
    HasBracketPair s ↔ (bracketMatch s).isSome = true := by
  unfold HasBracketPair bracketMatch
  rw [show ((bracketMatchL s.toList).map String.mk).isSome =
      (bracketMatchL s.toList).isSome from Option.isSome_map]
  exact (bracketMatchL_isSome _).symm

/-- Claim C7 (confirmed): the recommendation parser fails with a ParseError
exactly when the text holds no greedy bracketed-array match, or the matched
substring does not decode as well-formed JSON, or the decoded value is not
an array; otherwise it returns the decoded array; the texts with no
bracketed array evaluate to ParseError as claimed. -/
theorem C7_response_parsing :
    (∀ s : String,
        (∃ m, parseRecommendations s = .error (.parseError m)) ↔
          (¬ HasBracketPair s ∨
            ∃ sub, bracketMatch s = some sub ∧
              (jsonParse sub = none ∨
                ∃ v, jsonParse sub = some v ∧ v.isArr = false))) ∧
    (∀ (s sub : String) (elems : List JSON),
        bracketMatch s = some sub → jsonParse sub = some (.arr elems) →
        parseRecommendations s = .ok elems) ∧
    parseRecommendations "no array here" =
      .error (.parseError "Could not parse recommendations from Gemini response") ∧
    parseRecommendations "\x7b\x7d" =
      .error (.parseError "Could not parse recommendations from Gemini response") := by
  refine ⟨?_, ?_, rfl, rfl⟩
  · intro s
    rw [hasBracketPair_iff]
    unfold parseRecommendations
    cases hb : bracketMatch s with
    | none => simp [hb]
    | some sub =>
      cases hj : jsonParse sub with
      | none => simp [hj]
      | some v => cases v <;> simp [hj, JSON.isArr]
  · intro s sub elems hb hj
    simp [parseRecommendations, hb, hj]

/-- Claim C7 witness: a prose-wrapped array is extracted and decoded. -/
theorem C7_response_parsing_witness :
    parseRecommendations "say [\"a\"] ok" = .ok [JSON.str "a"] :=
  C7_response_parsing.2.1 "say [\"a\"] ok" "[\"a\"]" [JSON.str "a"] rfl rfl

/-- Claim C8 (confirmed): the Gemini client fails with a ConfigurationError
and performs no fetch when no API key is supplied; fails with an
UpstreamError whose message contains the status code and the response body
on a non-success status; fails with an UpstreamError when the parsed
response lacks the candidates-content-parts structure; and never performs
more than the single fetch attempt. -/
theorem C8_gemini_error_contract :
    (∀ resp : HttpResponse,
        getGeminiRecommendations "" resp =
          (.error (.configurationError "Gemini API key is required"), 0)) ∧
    (∀ (key : String) (resp : HttpResponse), key ≠ "" → resp.ok = false →
        getGeminiRecommendations key resp =
          (.error (.upstreamError
            ("Gemini API error: " ++ toString resp.status ++ " " ++
              resp.statusText ++ " - " ++ resp.body)), 1) ∧
        (∃ a b, "Gemini API error: " ++ toString resp.status ++ " " ++
            resp.statusText ++ " - " ++ resp.body =
          a ++ toString resp.status ++ b) ∧
        (∃ a, "Gemini API error: " ++ toString resp.status ++ " " ++
            resp.statusText ++ " - " ++ resp.body = a ++ resp.body)) ∧
    (∀ (key : String) (resp : HttpResponse) (data : JSON), key ≠ "" →
        resp.ok = true → jsonParse resp.body = some data →
        (truthy (optField (some data) "candidates") = false ∨
          truthy (optField (optField
            (optIndex (optField (some data) "candidates") 0) "content")
            "parts") = false) →
        getGeminiRecommendations key resp =
          (.error (.upstreamError "Invalid response from Gemini API"), 1)) ∧
    (∀ (key : String) (resp : HttpResponse),
        (getGeminiRecommendations key resp).2 ≤ 1) := by
  refine ⟨?_, ?_, ?_, ?_⟩
  · intro resp
    simp [getGeminiRecommendations]
  · intro key resp hk hok
    refine ⟨by simp [getGeminiRecommendations, hk, hok], ?_, ?_⟩
    · exact ⟨"Gemini API error: ",
        " " ++ resp.statusText ++ " - " ++ resp.body, by
          simp [String.append_assoc]⟩
    · exact ⟨"Gemini API error: " ++ toString resp.status ++ " " ++
        resp.statusText ++ " - ", by simp [String.append_assoc]⟩
  · intro key resp data hk hok hj hcond
    rcases hcond with h | h <;>
      simp [getGeminiRecommendations, hk, hok, hj, h]
  · intro key resp
    by_cases hk : key = ""
    · simp [getGeminiRecommendations, hk]
    · simp [getGeminiRecommendations, hk]

/-- Claim C8 witness: the three failure contracts evaluated at concrete
responses, with the fetch count recorded. -/
theorem C8_gemini_error_contract_witness :
    getGeminiRecommendations "key" ⟨false, 500, "Internal Server Error", "boom"⟩ =
      (.error (.upstreamError "Gemini API error: 500 Internal Server Error - boom"),
        1) ∧
    getGeminiRecommendations "key" ⟨true, 200, "OK", "\x7b\x7d"⟩ =
      (.error (.upstreamError "Invalid response from Gemini API"), 1) ∧
    getGeminiRecommendations "" ⟨true, 200, "OK", "\x7b\x7d"⟩ =
      (.error (.configurationError "Gemini API key is required"), 0) :=
  ⟨(C8_gemini_error_contract.2.1 "key" ⟨false, 500, "Internal Server Error", "boom"⟩
      (by decide) rfl).1,
   C8_gemini_error_contract.2.2.1 "key" ⟨true, 200, "OK", "\x7b\x7d"⟩ (JSON.obj [])
     (by decide) rfl rfl (Or.inl rfl),
   C8_gemini_error_contract.1 ⟨true, 200, "OK", "\x7b\x7d"⟩⟩

/-- Claim C10 (confirmed): with an empty available-products list the widget
sets the rendered set to the first 6 fallback products and returns without
issuing a POST, whatever the POST would have yielded. -/
theorem C10_widget_empty_available (fallbackProducts : List Product)
    (post : PostResult) :
    fetchRecommendations [] fallbackProducts post = (fallbackProducts.take 6, false) := by
  simp [fetchRecommendations]

end HydrogenDemo
